import Mathlib

/-!
Verification of the subscription-tracking core of the inx-mqtt repository.

The repository wires a third-party MQTT broker engine to a Topic Manager
that counts live subscribers per topic filter.  `src/mqtt/broker.go`
contains `NewBroker` and thin wrappers; the Topic Manager / Filter Registry
implementation itself is not among the provided source files, so those
components are modelled here from the specification.
-/

namespace InxMqtt

/-- Modelled from the spec: a `SubscriptionEntry` of the Filter Registry
(§3).  The topic-manager source file is missing; the spec gives
`(filter, count : unsigned integer ≥ 0, lastZeroAt : timestamp|none)`.
Timestamps are modelled as natural numbers. -/
structure SubscriptionEntry where
  count : Nat
  lastZeroAt : Option Nat
deriving DecidableEq

/-- Modelled from the spec: the Registry, a mapping from topic-filter
string to `SubscriptionEntry`, keys unique, no ordering guarantee (§3).
Modelled as an association list. -/
abbrev Registry := List (String × SubscriptionEntry)

/-- Look up the entry stored for a filter, if any. -/
def lookupEntry : Registry → String → Option SubscriptionEntry
  | [], _ => none
  | (g, e) :: r, f => if g = f then some e else lookupEntry r f

/-- Replace the entry stored at a key, leaving the registry unchanged when
the key is absent. -/
def updateEntry : Registry → String → SubscriptionEntry → Registry
  | [], _, _ => []
  | (g, e) :: r, f, e' => if g = f then (g, e') :: r else (g, e) :: updateEntry r f e'

/-- The subscriber count recorded for a filter; 0 when the filter is absent. -/
def countOf (r : Registry) (f : String) : Nat :=
  match lookupEntry r f with
  | some e => e.count
  | none => 0

/-- Modelled from the spec: `Size()` returns the number of entries
currently held, including zero-count entries awaiting cleanup (§4.1). -/
def Size (r : Registry) : Nat := r.length

/-- Modelled from the spec: `Increment(filter)` creates the entry if
absent (count=0, lastZeroAt=none), increments count by 1, clears
lastZeroAt, and returns whether this call caused a 0→1 transition (§4.1). -/
def Increment (r : Registry) (f : String) : Bool × Registry :=
  match lookupEntry r f with
  | none => (true, (f, { count := 1, lastZeroAt := none }) :: r)
  | some e => (e.count == 0, updateEntry r f { count := e.count + 1, lastZeroAt := none })

/-- Modelled from the spec: `Decrement(filter)` is a no-op returning false
if the filter is absent or already at count 0; otherwise it decrements by
1, and if the result is 0 it sets lastZeroAt to now and returns true (§4.1). -/
def Decrement (r : Registry) (f : String) (now : Nat) : Bool × Registry :=
  match lookupEntry r f with
  | none => (false, r)
  | some e =>
    if e.count = 0 then (false, r)
    else if e.count = 1 then (true, updateEntry r f { count := 0, lastZeroAt := some now })
    else (false, updateEntry r f { count := e.count - 1, lastZeroAt := e.lastZeroAt })

/-- Modelled from the spec: an entry is stale for `Sweep(now, threshold)`
when its count is 0 and its lastZeroAt is at least `threshold` old
relative to `now` (§4.1, §8: zero for ≥ T is removed, < T remains). -/
def staleEntry (now threshold : Nat) (e : SubscriptionEntry) : Bool :=
  (e.count == 0) &&
    (match e.lastZeroAt with
     | some z => decide (threshold ≤ now - z)
     | none => false)

/-- Modelled from the spec: `Sweep(now, threshold)` removes every entry
whose count is 0 and whose lastZeroAt is older than `threshold` relative
to `now` (§4.1). -/
def Sweep (now threshold : Nat) (r : Registry) : Registry :=
  r.filter (fun p => !staleEntry now threshold p.2)

/-- Split a list of characters on the `/` separator, accumulating the
current level in `acc` (in reverse). -/
def splitAux (acc : List Char) : List Char → List String
  | [] => [String.mk acc.reverse]
  | c :: cs => if c = '/' then String.mk acc.reverse :: splitAux [] cs else splitAux (c :: acc) cs

/-- Modelled from the spec: split a topic or filter string on `/` into its
levels (§4.2).  Behaves like Go's strings.Split: the empty string yields
one empty level, and leading/trailing separators are not normalized. -/
def splitLevels (s : String) : List String := splitAux [] s.data

/-- Modelled from the spec: the level-by-level matching walk (§4.2).
`+` consumes exactly one topic level; `#` as the last filter level matches
immediately, consuming all remaining topic levels including none; a
literal level must equal the topic level exactly; exhaustion on either
side otherwise fails.  A `#` at a non-final level never matches (§7:
matching against malformed filters simply never succeeds). -/
def matchLevels : List String → List String → Bool
  | ["#"], _ => true
  | [], [] => true
  | [], _ :: _ => false
  | _ :: _, [] => false
  | f :: fs, t :: ts =>
    if f = "#" then false
    else (f == "+" || f == t) && matchLevels fs ts

/-- Modelled from the spec: the match predicate on whole strings — split
both topic and filter on `/` and walk level by level (§4.2). -/
def topicMatchesFilter (topic filter : String) : Bool :=
  matchLevels (splitLevels filter) (splitLevels topic)

/-- Modelled from the spec: `HasSubscribers(topic)` returns true iff at
least one registered filter with count > 0 matches the topic under the
MQTT filter-matching rules (§4.2). -/
def HasSubscribers (r : Registry) (topic : String) : Bool :=
  r.any (fun p => decide (0 < p.2.count) && topicMatchesFilter topic p.1)

/-- A subscribe or unsubscribe notification from the broker engine. -/
inductive TMEvent where
  | sub (filter : String)
  | unsub (filter : String)
deriving DecidableEq

/-- A user callback invocation performed by the Topic Manager. -/
inductive TMCallback where
  | onFirstSubscriber (filter : String)
  | onLastUnsubscriber (filter : String)
deriving DecidableEq

/-- Modelled from the spec: one Topic Manager step (§4.2).  `Subscribe`
calls `Increment` and invokes `onFirstSubscriber` on a 0→1 transition;
`Unsubscribe` calls `Decrement` and invokes `onLastUnsubscriber` on a
1→0 transition.  Callback invocations are returned as a list. -/
def tmStep (now : Nat) (r : Registry) : TMEvent → Registry × List TMCallback
  | .sub f =>
    let p := Increment r f
    (p.2, if p.1 then [.onFirstSubscriber f] else [])
  | .unsub f =>
    let p := Decrement r f now
    (p.2, if p.1 then [.onLastUnsubscriber f] else [])

/-- Replay a sequence of events, returning the final registry. -/
def replayReg (now : Nat) (r : Registry) : List TMEvent → Registry
  | [] => r
  | e :: es => replayReg now (tmStep now r e).1 es

/-- Number of Subscribe events for filter `f` in a sequence. -/
def numSubs (f : String) : List TMEvent → Nat
  | [] => 0
  | TMEvent.sub g :: es => (if g = f then 1 else 0) + numSubs f es
  | TMEvent.unsub _ :: es => numSubs f es

/-- Whether one event, fired against registry `r`, is a successfully
applied Unsubscribe for filter `f` (the spec's `Decrement` actually
decrements exactly when the filter is present with count > 0). -/
def appliedUnsub (r : Registry) (f : String) : TMEvent → Nat
  | TMEvent.unsub g => if g = f ∧ 0 < countOf r f then 1 else 0
  | TMEvent.sub _ => 0

/-- Number of successfully applied Unsubscribe calls for filter `f`
during a replay starting from registry `r`. -/
def replayApplied (now : Nat) (f : String) (r : Registry) : List TMEvent → Nat
  | [] => 0
  | e :: es => appliedUnsub r f e + replayApplied now f (tmStep now r e).1 es

/-- Configuration options consumed by `NewBroker`, with the fields read in
src/mqtt/broker.go. -/
structure BrokerOptions where
  WebsocketEnabled : Bool
  WebsocketBindAddress : String
  TCPEnabled : Bool
  TCPBindAddress : String
  TCPAuthEnabled : Bool
  TCPAuthPasswordSalt : String
  TCPAuthUsers : List (String × String)
  TCPTLSEnabled : Bool
  TCPTLSCertificatePath : String
  TCPTLSPrivateKeyPath : String
  BufferSize : Nat
  BufferBlockSize : Nat
  TopicCleanupThreshold : Nat

/-- Outcomes of the external collaborators `NewBroker` calls: bind-address
parsing (net.SplitHostPort), listener registration (broker.AddListener),
TCP authentication setup (NewAuthAllowUsers) and TLS setup
(NewTLSSettings).  These live outside the repository and are abstracted as
success predicates. -/
structure NetEnv where
  splitHostPortOk : String → Bool
  addListenerOk : String → Bool
  authAllowUsersOk : String → List (String × String) → Bool
  tlsSettingsOk : String → String → Bool

/-- The broker value built by `NewBroker` (src/mqtt/broker.go:97-101): the
options and the freshly created topic manager, whose registry starts
empty. -/
structure Broker where
  opts : BrokerOptions
  registry : Registry
  cleanupThreshold : Nat

/-- The websocket branch of `NewBroker` (src/mqtt/broker.go:33-47): check
the bind address, then add the "ws1" listener; `none` means success,
`some msg` the error returned early. -/
def checkWebsocket (env : NetEnv) (opts : BrokerOptions) : Option String :=
  if opts.WebsocketEnabled then
    if env.splitHostPortOk opts.WebsocketBindAddress then
      if env.addListenerOk "ws1" then none
      else some "adding websocket listener failed"
    else some ("parsing websocket bind address (" ++ opts.WebsocketBindAddress ++ ") failed")
  else none

/-- The TCP branch of `NewBroker` (src/mqtt/broker.go:49-84): check the
bind address, build the auth controller (user auth when TCPAuthEnabled,
allow-everyone otherwise), build TLS settings when enabled, then add the
"t1" listener. -/
def checkTCP (env : NetEnv) (opts : BrokerOptions) : Option String :=
  if opts.TCPEnabled then
    if env.splitHostPortOk opts.TCPBindAddress then
      if opts.TCPAuthEnabled && !env.authAllowUsersOk opts.TCPAuthPasswordSalt opts.TCPAuthUsers then
        some "Enabling TCP Authentication failed"
      else if opts.TCPTLSEnabled && !env.tlsSettingsOk opts.TCPTLSCertificatePath opts.TCPTLSPrivateKeyPath then
        some "Enabling TCP TLS failed"
      else if env.addListenerOk "t1" then none
      else some "adding TCP listener failed"
    else some ("parsing TCP bind address (" ++ opts.TCPBindAddress ++ ") failed")
  else none

/-- `NewBroker` (src/mqtt/broker.go:22-102): errors out immediately when
neither websocket nor TCP is enabled; otherwise configures the enabled
listeners in order, propagating the first failure, and on success returns
the broker holding the options and a fresh topic manager. -/
def NewBroker (env : NetEnv) (opts : BrokerOptions) : Except String Broker :=
  if !opts.WebsocketEnabled && !opts.TCPEnabled then
    Except.error "at least websocket or TCP must be enabled"
  else
    match checkWebsocket env opts with
    | some msg => Except.error msg
    | none =>
      match checkTCP env opts with
      | some msg => Except.error msg
      | none =>
        Except.ok { opts := opts, registry := [], cleanupThreshold := opts.TopicCleanupThreshold }

/-! ### Registry lemmas -/

theorem lookupEntry_updateEntry_self (r : Registry) (f : String) (e' : SubscriptionEntry) :
    lookupEntry (updateEntry r f e') f = (lookupEntry r f).map (fun _ => e') := by
  induction r with
  | nil => rfl
  | cons p r ih =>
    obtain ⟨g, e⟩ := p
    by_cases h : g = f <;> simp [lookupEntry, updateEntry, h, ih]

theorem keys_updateEntry (r : Registry) (f : String) (e' : SubscriptionEntry) :
    (updateEntry r f e').map Prod.fst = r.map Prod.fst := by
  induction r with
  | nil => rfl
  | cons p r ih =>
    obtain ⟨g, e⟩ := p
    by_cases h : g = f <;> simp [updateEntry, h, ih]

theorem lookupEntry_Increment (r : Registry) (f : String) :
    lookupEntry (Increment r f).2 f =
      some { count := countOf r f + 1, lastZeroAt := none } := by
  cases h : lookupEntry r f with
  | none => simp [Increment, countOf, h, lookupEntry]
  | some e => simp [Increment, countOf, h, lookupEntry_updateEntry_self]

theorem countOf_Increment (r : Registry) (f : String) :
    countOf (Increment r f).2 f = countOf r f + 1 := by
  simp [countOf, lookupEntry_Increment]

theorem Increment_fst (r : Registry) (f : String) :
    (Increment r f).1 = true ↔ countOf r f = 0 := by
  cases h : lookupEntry r f with
  | none => simp [Increment, countOf, h]
  | some e => simp [Increment, countOf, h]

theorem countOf_Decrement (r : Registry) (f : String) (now : Nat) :
    countOf (Decrement r f now).2 f = countOf r f - 1 := by
  cases h : lookupEntry r f with
  | none => simp [Decrement, countOf, h]
  | some e =>
    by_cases h0 : e.count = 0
    · simp [Decrement, countOf, h, h0]
    · by_cases h1 : e.count = 1 <;>
        simp [Decrement, countOf, h, h0, h1, lookupEntry_updateEntry_self]

theorem Decrement_fst (r : Registry) (f : String) (now : Nat) :
    (Decrement r f now).1 = true ↔ countOf r f = 1 := by
  cases h : lookupEntry r f with
  | none => simp [Decrement, countOf, h]
  | some e =>
    by_cases h0 : e.count = 0
    · simp [Decrement, countOf, h, h0]
    · by_cases h1 : e.count = 1 <;> simp [Decrement, countOf, h, h0, h1]

theorem Decrement_noop (r : Registry) (f : String) (now : Nat)
    (h : countOf r f = 0) : Decrement r f now = (false, r) := by
  cases hl : lookupEntry r f with
  | none => simp [Decrement, hl]
  | some e =>
    have : e.count = 0 := by simpa [countOf, hl] using h
    simp [Decrement, hl, this]

theorem keys_Decrement (r : Registry) (f : String) (now : Nat) :
    ((Decrement r f now).2).map Prod.fst = r.map Prod.fst := by
  cases h : lookupEntry r f with
  | none => simp [Decrement, h]
  | some e =>
    by_cases h0 : e.count = 0
    · simp [Decrement, h, h0]
    · by_cases h1 : e.count = 1 <;> simp [Decrement, h, h0, h1, keys_updateEntry]

/-! ### Matching-walk lemmas -/

theorem matchLevels_hash_any (ts : List String) : matchLevels ["#"] ts = true := by
  cases ts <;> rfl

theorem matchLevels_nil_cons (t : String) (ts : List String) :
    matchLevels [] (t :: ts) = false := rfl

theorem matchLevels_cons_nil (f : String) (fs : List String) :
    matchLevels (f :: fs) [] = decide (f = "#" ∧ fs = []) := by
  by_cases hf : f = "#"
  · cases fs with
    | nil => subst hf; simp [matchLevels]
    | cons g gs => subst hf; simp [matchLevels]
  · cases fs with
    | nil => simp [matchLevels, hf]
    | cons g gs => simp [matchLevels, hf]

theorem matchLevels_cons_cons (f : String) (fs : List String) (t : String) (ts : List String) :
    matchLevels (f :: fs) (t :: ts) =
      if f = "#" then decide (fs = [])
      else (f == "+" || f == t) && matchLevels fs ts := by
  by_cases hf : f = "#"
  · cases fs with
    | nil => subst hf; simp [matchLevels]
    | cons g gs => subst hf; simp [matchLevels]
  · cases fs with
    | nil => simp [matchLevels, hf]
    | cons g gs => simp [matchLevels, hf]

theorem matchLevels_hash_nonfinal (a b : List String) (hb : b ≠ []) :
    ∀ ts : List String, matchLevels (a ++ "#" :: b) ts = false := by
  induction a with
  | nil =>
    intro ts
    obtain ⟨c, b', rfl⟩ : ∃ c b', b = c :: b' := by
      cases b with
      | nil => exact absurd rfl hb
      | cons c b' => exact ⟨c, b', rfl⟩
    cases ts with
    | nil => simp [matchLevels_cons_nil]
    | cons t ts' => simp [matchLevels_cons_cons]
  | cons x a' ih =>
    intro ts
    cases ts with
    | nil =>
      rw [List.cons_append, matchLevels_cons_nil]
      simp
    | cons t ts' =>
      rw [List.cons_append, matchLevels_cons_cons]
      by_cases hx : x = "#"
      · simp [hx]
      · simp [hx, ih ts']

/-! ### Topic-manager step and replay lemmas -/

theorem tmStep_sub (now : Nat) (r : Registry) (f : String) :
    tmStep now r (.sub f) =
      ((Increment r f).2,
       if (Increment r f).1 then [TMCallback.onFirstSubscriber f] else []) := rfl

theorem tmStep_unsub (now : Nat) (r : Registry) (f : String) :
    tmStep now r (.unsub f) =
      ((Decrement r f now).2,
       if (Decrement r f now).1 then [TMCallback.onLastUnsubscriber f] else []) := rfl

theorem replay_count_general (now : Nat) (f : String) :
    ∀ (es : List TMEvent) (r : Registry),
      (∀ e ∈ es, e = TMEvent.sub f ∨ e = TMEvent.unsub f) →
      countOf (replayReg now r es) f + replayApplied now f r es =
        countOf r f + numSubs f es := by
  intro es
  induction es with
  | nil => intro r _; simp [replayReg, replayApplied, numSubs]
  | cons e es ih =>
    intro r hall
    have hrest : ∀ e' ∈ es, e' = TMEvent.sub f ∨ e' = TMEvent.unsub f :=
      fun e' h' => hall e' (List.mem_cons_of_mem e h')
    have hstep := ih (tmStep now r e).1 hrest
    cases hall e (List.mem_cons_self e es) with
    | inl hsub =>
      subst hsub
      have hc : countOf (tmStep now r (.sub f)).1 f = countOf r f + 1 := by
        rw [tmStep_sub]; exact countOf_Increment r f
      rw [show replayReg now r (TMEvent.sub f :: es) =
            replayReg now (tmStep now r (.sub f)).1 es from rfl,
          show replayApplied now f r (TMEvent.sub f :: es) =
            appliedUnsub r f (.sub f) +
              replayApplied now f (tmStep now r (.sub f)).1 es from rfl]
      simp [appliedUnsub, numSubs]
      omega
    | inr hunsub =>
      subst hunsub
      have hc : countOf (tmStep now r (.unsub f)).1 f = countOf r f - 1 := by
        rw [tmStep_unsub]; exact countOf_Decrement r f now
      rw [show replayReg now r (TMEvent.unsub f :: es) =
            replayReg now (tmStep now r (.unsub f)).1 es from rfl,
          show replayApplied now f r (TMEvent.unsub f :: es) =
            appliedUnsub r f (.unsub f) +
              replayApplied now f (tmStep now r (.unsub f)).1 es from rfl]
      simp [appliedUnsub, numSubs]
      by_cases hpos : 0 < countOf r f <;> simp [hpos] <;> omega

/-! ### Claim theorems -/

/-- Claim C1: for every concrete topic string, `HasSubscribers` returns
true iff some registered filter with count strictly greater than 0 matches
the topic under the MQTT filter-matching rules; filters at count 0
(awaiting cleanup) never make it true. -/
theorem hasSubscribers_iff_live_matching_filter (r : Registry) (topic : String) :
    HasSubscribers r topic = true ↔
      ∃ f e, (f, e) ∈ r ∧ 0 < e.count ∧ topicMatchesFilter topic f = true := by
  simp only [HasSubscribers, List.any_eq_true, Bool.and_eq_true, decide_eq_true_eq]
  constructor
  · rintro ⟨⟨f, e⟩, hm, h1, h2⟩
    exact ⟨f, e, hm, h1, h2⟩
  · rintro ⟨f, e, hm, h1, h2⟩
    exact ⟨⟨f, e⟩, hm, h1, h2⟩

/-- Claim C3: `Subscribe` invokes `onFirstSubscriber` exactly when the
call takes the filter's count from 0 to 1, `Unsubscribe` invokes
`onLastUnsubscriber` exactly when it takes the count from 1 to 0, each
exactly once, and calls causing no transition invoke no callback. -/
theorem callbacks_exactly_on_transitions (now : Nat) (r : Registry) (f : String) :
    countOf (tmStep now r (.sub f)).1 f = countOf r f + 1 ∧
    (tmStep now r (.sub f)).2 =
      (if countOf r f = 0 ∧ countOf (tmStep now r (.sub f)).1 f = 1
        then [TMCallback.onFirstSubscriber f] else []) ∧
    countOf (tmStep now r (.unsub f)).1 f = countOf r f - 1 ∧
    (tmStep now r (.unsub f)).2 =
      (if countOf r f = 1 ∧ countOf (tmStep now r (.unsub f)).1 f = 0
        then [TMCallback.onLastUnsubscriber f] else []) := by
  have hc1 : countOf (tmStep now r (.sub f)).1 f = countOf r f + 1 := by
    rw [tmStep_sub]; exact countOf_Increment r f
  have hc2 : countOf (tmStep now r (.unsub f)).1 f = countOf r f - 1 := by
    rw [tmStep_unsub]; exact countOf_Decrement r f now
  refine ⟨hc1, ?_, hc2, ?_⟩
  · by_cases h0 : countOf r f = 0
    · simp [tmStep_sub, (Increment_fst r f).mpr h0, countOf_Increment, h0]
    · have hfalse : (Increment r f).1 = false := by
        cases hb : (Increment r f).1
        · rfl
        · exact absurd ((Increment_fst r f).mp hb) h0
      simp [tmStep_sub, hfalse, countOf_Increment, h0]
  · by_cases h1 : countOf r f = 1
    · simp [tmStep_unsub, (Decrement_fst r f now).mpr h1, countOf_Decrement, h1]
    · have hfalse : (Decrement r f now).1 = false := by
        cases hb : (Decrement r f now).1
        · rfl
        · exact absurd ((Decrement_fst r f now).mp hb) h1
      simp [tmStep_unsub, hfalse, countOf_Decrement, h1]

/-- Claim C4: the match predicate splits on `/` and walks level by level:
`+` consumes exactly one topic level, `#` as last filter level matches
immediately (so `a/#` matches the bare topic `a`), a literal level must
equal the topic level exactly, and exhaustion on either side (last filter
level not `#`) yields no match; hence `a/+/c` matches `a/b/c` but not
`a/b/x/c`, and `a/b` does not match `a/b/c`. -/
theorem match_predicate_characterization :
    (∀ ts : List String, matchLevels ["#"] ts = true) ∧
    matchLevels [] [] = true ∧
    (∀ (t : String) (ts : List String), matchLevels [] (t :: ts) = false) ∧
    (∀ (f : String) (fs : List String),
        matchLevels (f :: fs) [] = decide (f = "#" ∧ fs = [])) ∧
    (∀ (f : String) (fs : List String) (t : String) (ts : List String),
        matchLevels (f :: fs) (t :: ts) =
          if f = "#" then decide (fs = [])
          else (f == "+" || f == t) && matchLevels fs ts) ∧
    topicMatchesFilter "a/b/c" "a/+/c" = true ∧
    topicMatchesFilter "a/b/x/c" "a/+/c" = false ∧
    topicMatchesFilter "a/b/c" "a/#" = true ∧
    topicMatchesFilter "a" "a/#" = true ∧
    topicMatchesFilter "a/b/c" "a/b" = false :=
  ⟨matchLevels_hash_any, rfl, matchLevels_nil_cons, matchLevels_cons_nil,
    matchLevels_cons_cons, by decide, by decide, by decide, by decide, by decide⟩

/-- Claim C5: a filter in which `#` occurs at a non-final level never
matches any topic: matching against such a malformed filter always
returns false. -/
theorem malformed_hash_filter_never_matches (topic filter : String)
    (a b : List String) (hsplit : splitLevels filter = a ++ "#" :: b)
    (hb : b ≠ []) : topicMatchesFilter topic filter = false := by
  rw [topicMatchesFilter, hsplit]
  exact matchLevels_hash_nonfinal a b hb (splitLevels topic)

/-- Witness for claim C5 at the filter `a/#/b` and topic `a/x/b`. -/
theorem malformed_hash_filter_never_matches_witness :
    splitLevels "a/#/b" = ["a"] ++ "#" :: ["b"] ∧ (["b"] : List String) ≠ [] ∧
      topicMatchesFilter "a/x/b" "a/#/b" = false :=
  ⟨by decide, by decide,
    malformed_hash_filter_never_matches "a/x/b" "a/#/b" ["a"] ["b"] (by decide) (by decide)⟩

/-- Claim C6: `Decrement` on a filter that is absent or already at count 0
is a no-op: it returns false, leaves the registry unchanged, and the
unsubscribe step invokes no callback. -/
theorem decrement_absent_or_zero_noop (r : Registry) (f : String) (now : Nat)
    (h : lookupEntry r f = none ∨ ∃ e, lookupEntry r f = some e ∧ e.count = 0) :
    Decrement r f now = (false, r) ∧ (tmStep now r (.unsub f)).2 = [] := by
  have hc : countOf r f = 0 := by
    cases h with
    | inl h => simp [countOf, h]
    | inr h => obtain ⟨e, he, h0⟩ := h; simp [countOf, he, h0]
  have hd := Decrement_noop r f now hc
  exact ⟨hd, by simp [tmStep_unsub, hd]⟩

/-- Witness for claim C6 on a registry holding the filter at count 0. -/
theorem decrement_absent_or_zero_noop_witness :
    Decrement [("a", ⟨0, some 5⟩)] "a" 9 = (false, [("a", ⟨0, some 5⟩)]) ∧
      (tmStep 9 [("a", ⟨0, some 5⟩)] (.unsub "a")).2 = [] :=
  decrement_absent_or_zero_noop [("a", ⟨0, some 5⟩)] "a" 9
    (Or.inr ⟨⟨0, some 5⟩, by decide, rfl⟩)

/-- Claim C8: `Increment` creates the entry if absent (count 0, lastZeroAt
none), then increments the count by 1 and clears lastZeroAt, and returns
true exactly when the count transitioned from 0 to 1 (including the
newly-created case). -/
theorem increment_creates_counts_and_reports (r : Registry) (f : String) :
    ((Increment r f).1 = true ↔ countOf r f = 0) ∧
    lookupEntry (Increment r f).2 f =
      some { count := countOf r f + 1, lastZeroAt := none } :=
  ⟨Increment_fst r f, lookupEntry_Increment r f⟩

/-- Claim C9: an unsubscribe step never removes a registry entry: the
key list, and hence `Size`, are unchanged even when the count reaches 0;
only `Sweep` removes entries. -/
theorem unsubscribe_never_removes_entries (r : Registry) (f : String) (now : Nat) :
    ((tmStep now r (.unsub f)).1).map Prod.fst = r.map Prod.fst ∧
    Size (tmStep now r (.unsub f)).1 = Size r := by
  have h := keys_Decrement r f now
  refine ⟨by simpa [tmStep_unsub] using h, ?_⟩
  have h2 := congrArg List.length h
  simpa [Size, tmStep_unsub] using h2

/-- Claim C2: replaying any same-filter sequence of Subscribe/Unsubscribe
events from an empty registry, after every prefix the filter's count
equals the number of Subscribe events so far minus the successfully
applied Unsubscribe events so far (truncated subtraction realises the
clamp at 0), and applied unsubscribes never exceed subscribes; counts are
natural numbers, so no state is ever negative. -/
theorem count_equals_subs_minus_applied (now : Nat) (f : String)
    (es : List TMEvent)
    (hall : ∀ e ∈ es, e = TMEvent.sub f ∨ e = TMEvent.unsub f) :
    ∀ n : Nat,
      replayApplied now f [] (es.take n) ≤ numSubs f (es.take n) ∧
      countOf (replayReg now [] (es.take n)) f =
        numSubs f (es.take n) - replayApplied now f [] (es.take n) := by
  intro n
  have hall' : ∀ e ∈ es.take n, e = TMEvent.sub f ∨ e = TMEvent.unsub f :=
    fun e h => hall e (List.take_subset n es h)
  have h := replay_count_general now f (es.take n) [] hall'
  have h0 : countOf ([] : Registry) f = 0 := rfl
  rw [h0] at h
  omega

/-- Witness for claim C2 on the sequence sub, unsub, unsub of filter `a`. -/
theorem count_equals_subs_minus_applied_witness :
    replayApplied 0 "a" []
        ([TMEvent.sub "a", TMEvent.unsub "a", TMEvent.unsub "a"].take 3) ≤
      numSubs "a" ([TMEvent.sub "a", TMEvent.unsub "a", TMEvent.unsub "a"].take 3) ∧
    countOf (replayReg 0 []
        ([TMEvent.sub "a", TMEvent.unsub "a", TMEvent.unsub "a"].take 3)) "a" =
      numSubs "a" ([TMEvent.sub "a", TMEvent.unsub "a", TMEvent.unsub "a"].take 3) -
        replayApplied 0 "a" []
          ([TMEvent.sub "a", TMEvent.unsub "a", TMEvent.unsub "a"].take 3) :=
  count_equals_subs_minus_applied 0 "a"
    [TMEvent.sub "a", TMEvent.unsub "a", TMEvent.unsub "a"] (by decide) 3

theorem staleEntry_eq_false_iff (now th : Nat) (e : SubscriptionEntry) :
    staleEntry now th e = false ↔
      ¬(e.count = 0 ∧ ∃ z, e.lastZeroAt = some z ∧ th ≤ now - z) := by
  obtain ⟨c, lz⟩ := e
  cases lz with
  | none => simp [staleEntry]
  | some z => simp [staleEntry]

/-- Claim C7: `Sweep now threshold` removes exactly the entries whose
count is 0 and whose lastZeroAt is at least `threshold` old relative to
`now`; zero-count entries within the threshold and all entries with
positive count survive, and sweeping twice with the same arguments equals
sweeping once. -/
theorem sweep_removes_exactly_stale_and_idempotent (now threshold : Nat) (r : Registry) :
    (∀ p : String × SubscriptionEntry,
        p ∈ Sweep now threshold r ↔
          p ∈ r ∧
            ¬(p.2.count = 0 ∧ ∃ z, p.2.lastZeroAt = some z ∧ threshold ≤ now - z)) ∧
    Sweep now threshold (Sweep now threshold r) = Sweep now threshold r := by
  constructor
  · intro p
    rw [Sweep, List.mem_filter]
    constructor
    · rintro ⟨hm, hs⟩
      exact ⟨hm, (staleEntry_eq_false_iff now threshold p.2).mp (by simpa using hs)⟩
    · rintro ⟨hm, hn⟩
      exact ⟨hm, by simpa using (staleEntry_eq_false_iff now threshold p.2).mpr hn⟩
  · rw [Sweep, Sweep, List.filter_filter]
    simp [Bool.and_self]

/-- Claim C10: `NewBroker` fails with an error when neither websocket nor
TCP is enabled, and succeeds — returning the broker with the supplied
options and a fresh topic manager — when at least one is enabled and
every configuration step of the enabled listeners succeeds. -/
theorem newBroker_listener_requirements (env : NetEnv) (opts : BrokerOptions) :
    (opts.WebsocketEnabled = false ∧ opts.TCPEnabled = false →
      NewBroker env opts = Except.error "at least websocket or TCP must be enabled") ∧
    ((opts.WebsocketEnabled = true ∨ opts.TCPEnabled = true) →
     (opts.WebsocketEnabled = true →
        env.splitHostPortOk opts.WebsocketBindAddress = true ∧
          env.addListenerOk "ws1" = true) →
     (opts.TCPEnabled = true →
        env.splitHostPortOk opts.TCPBindAddress = true ∧
        (opts.TCPAuthEnabled = true →
          env.authAllowUsersOk opts.TCPAuthPasswordSalt opts.TCPAuthUsers = true) ∧
        (opts.TCPTLSEnabled = true →
          env.tlsSettingsOk opts.TCPTLSCertificatePath opts.TCPTLSPrivateKeyPath = true) ∧
        env.addListenerOk "t1" = true) →
      NewBroker env opts =
        Except.ok
          { opts := opts, registry := [],
            cleanupThreshold := opts.TopicCleanupThreshold }) := by
  constructor
  · rintro ⟨h1, h2⟩
    simp [NewBroker, h1, h2]
  · intro henb hws htcp
    have hcw : checkWebsocket env opts = none := by
      cases hw : opts.WebsocketEnabled
      · simp [checkWebsocket, hw]
      · obtain ⟨hsp, hal⟩ := hws hw
        simp [checkWebsocket, hw, hsp, hal]
    have hct : checkTCP env opts = none := by
      cases ht : opts.TCPEnabled
      · simp [checkTCP, ht]
      · obtain ⟨hsp, hauth, htls, hal⟩ := htcp ht
        have hauth' :
            (opts.TCPAuthEnabled &&
              !env.authAllowUsersOk opts.TCPAuthPasswordSalt opts.TCPAuthUsers) = false := by
          cases ha : opts.TCPAuthEnabled
          · simp
          · simp [hauth ha]
        have htls' :
            (opts.TCPTLSEnabled &&
              !env.tlsSettingsOk opts.TCPTLSCertificatePath opts.TCPTLSPrivateKeyPath) = false := by
          cases htl : opts.TCPTLSEnabled
          · simp
          · simp [htls htl]
        simp [checkTCP, ht, hsp, hauth', htls', hal]
    have hcond : (!opts.WebsocketEnabled && !opts.TCPEnabled) = false := by
      cases henb with
      | inl h => simp [h]
      | inr h => simp [h]
    simp [NewBroker, hcond, hcw, hct]

/-- An environment in which every external configuration step succeeds. -/
def envAllOk : NetEnv :=
  { splitHostPortOk := fun _ => true
    addListenerOk := fun _ => true
    authAllowUsersOk := fun _ _ => true
    tlsSettingsOk := fun _ _ => true }

/-- Options enabling both listeners, TCP auth and TCP TLS. -/
def optsAllOn : BrokerOptions :=
  { WebsocketEnabled := true
    WebsocketBindAddress := "localhost:1888"
    TCPEnabled := true
    TCPBindAddress := "localhost:1883"
    TCPAuthEnabled := true
    TCPAuthPasswordSalt := "salt"
    TCPAuthUsers := [("user", "hash")]
    TCPTLSEnabled := true
    TCPTLSCertificatePath := "cert.pem"
    TCPTLSPrivateKeyPath := "key.pem"
    BufferSize := 0
    BufferBlockSize := 0
    TopicCleanupThreshold := 5 }

/-- Witness for claim C10: with every external step succeeding and both
listeners enabled, `NewBroker` succeeds. -/
theorem newBroker_listener_requirements_witness :
    NewBroker envAllOk optsAllOn =
      Except.ok
        { opts := optsAllOn, registry := [],
          cleanupThreshold := optsAllOn.TopicCleanupThreshold } :=
  (newBroker_listener_requirements envAllOk optsAllOn).2 (Or.inl rfl)
    (fun _ => ⟨rfl, rfl⟩) (fun _ => ⟨rfl, fun _ => rfl, fun _ => rfl, rfl⟩)

end InxMqtt
